import Mathlib

/-!
Verification of the BC-hospitals extraction pipeline
(`bc_hospitals_scraper.py`): a shallow embedding of its record model and
pure data transformations, with theorems settling the specified
properties.  HTML documents are represented by the *content the scraper
inspects*: text of microformat nodes, map-link data attributes, infobox
rows (label cell text, value cell text).  Network effects are
represented by explicit outcome values (an `Option`/`Except` result per
URL).  Python `float` values are modelled as exact decimals, and Python
truthiness of the values that actually flow through the pipeline
(`None`, floats, strings) is modelled explicitly where the code relies
on it (`x or y`, `url if beds_raw else None`).
-/

namespace BCH

/-! ## String utilities -/

/-- Collapse every run of whitespace to a single space
(`re.sub(r"\s+", " ", s)` on the character list). -/
def collapseWS : List Char → List Char
  | [] => []
  | [c] => if c.isWhitespace then [' '] else [c]
  | c :: c' :: cs =>
    if c.isWhitespace && c'.isWhitespace then collapseWS (c' :: cs)
    else (if c.isWhitespace then ' ' else c) :: collapseWS (c' :: cs)

/-- Strip leading and trailing whitespace (`str.strip`). -/
def stripL (l : List Char) : List Char :=
  ((l.dropWhile Char.isWhitespace).reverse.dropWhile Char.isWhitespace).reverse

/-- `_clean_text`: collapse whitespace runs to single spaces, then strip
leading/trailing whitespace. -/
def _clean_text (s : String) : String :=
  String.mk (stripL (collapseWS s.toList))

/-- `str.lower` on the character list (code-point lowercasing). -/
def lowerL (l : List Char) : List Char :=
  l.map Char.toLower

/-- `s.startswith(p)` on character lists. -/
def startsWithL : List Char → List Char → Bool
  | _, [] => true
  | [], _ :: _ => false
  | c :: cs, p :: ps => c == p && startsWithL cs ps

/-- Lexicographic `≤` on character lists, by code point — the order
Python string comparison (and hence the pandas sort on string columns)
uses. -/
def leCL : List Char → List Char → Bool
  | [], _ => true
  | _ :: _, [] => false
  | c :: cs, d :: ds =>
    if c < d then true else if d < c then false else leCL cs ds

/-- Value of a decimal digit list read most-significant first. -/
def digitsToNat (l : List Char) : ℕ :=
  l.foldl (fun n c => 10 * n + (c.toNat - 48)) 0

/-- Exact value of a parsed decimal numeral, denoting
`mant / 10 ^ exp`.  The pipeline never computes with parsed
coordinates: it only stores them and (through Python truthiness) tests
them against zero, so the exact decimal value is a faithful model of
the `float` the code holds.  The denoted rational is `Dec.toRat`. -/
structure Dec where
  mant : ℤ
  exp : ℕ
deriving DecidableEq

/-- The rational number a parsed decimal denotes. -/
def Dec.toRat (d : Dec) : ℚ :=
  (d.mant : ℚ) / (10 : ℚ) ^ d.exp

/-- Python truthiness of a float: `0.0` (and `-0.0`) is falsy, every
other float is truthy. -/
def Dec.truthy (d : Dec) : Bool :=
  d.mant ≠ 0

/-- Model of Python `float(s)` on the plain signed decimal numerals that
occur in coordinate markup: optional surrounding whitespace, optional
sign, digits with an optional single point (`"49"`, `"-123.37"`,
`".5"`, `"1."`).  Returns `none` where `float` raises `ValueError`
(empty text, stray characters); exponent/`inf`/`nan` forms are outside
the modelled fragment. -/
def pyFloat (s : String) : Option Dec :=
  let t := stripL s.toList
  let signed : ℤ × List Char :=
    match t with
    | '-' :: r => (-1, r)
    | '+' :: r => (1, r)
    | r => (1, r)
  let sign := signed.1
  let u := signed.2
  let intPart := u.takeWhile Char.isDigit
  let rest := u.drop intPart.length
  match rest with
  | [] =>
    if intPart.isEmpty then none
    else some ⟨sign * digitsToNat intPart, 0⟩
  | '.' :: frac =>
    if frac.all Char.isDigit && !(intPart.isEmpty && frac.isEmpty) then
      some ⟨sign * (digitsToNat intPart * 10 ^ frac.length +
        digitsToNat frac), frac.length⟩
    else none
  | _ => none

/-! ## Coordinate extraction (`extract_coords_from_node`) -/

/-- The map-link anchor (`a.mw-kartographer-maplink`) as the scraper
sees it: its optional `data-lat` / `data-lon` attribute strings. -/
structure Maplink where
  dataLat : Option String
  dataLon : Option String
deriving DecidableEq

/-- A markup fragment as inspected by `extract_coords_from_node`: the
text of its first `.geo` element (if any), the texts of its first
`.latitude` / `.longitude` elements (if any), and its first map-link
anchor (if any). -/
structure Node where
  geo : Option String
  latitudeNode : Option String
  longitudeNode : Option String
  maplink : Option Maplink
deriving DecidableEq

/-- Split a character list at every `;`, `,` or space
(`re.split(r"[;, ]+", txt)`, before the empty-token filter; on cleaned
text the only whitespace left is single spaces). -/
def splitGeoTokens : List Char → List (List Char)
  | [] => [[]]
  | c :: cs =>
    let r := splitGeoTokens cs
    if c = ';' || c = ',' || c = ' ' then [] :: r
    else
      match r with
      | [] => [[c]]
      | t :: ts => (c :: t) :: ts

/-- Strategy 1: combined `.geo` element.  Clean its text, split on runs
of `;`, `,` and spaces, drop empty tokens, and parse the first two
tokens as floats; any failure (missing element, fewer than two tokens,
a non-numeric token) yields `none`. -/
def geoStrategy (node : Node) : Option (Dec × Dec) :=
  match node.geo with
  | none => none
  | some g =>
    let parts := ((splitGeoTokens (_clean_text g).toList).map
        String.mk).filter (· ≠ "")
    match parts with
    | p0 :: p1 :: _ =>
      match pyFloat p0, pyFloat p1 with
      | some a, some b => some (a, b)
      | _, _ => none
    | _ => none

/-- Strategy 2: separate `.latitude` / `.longitude` elements.  Both must
be present and both texts (stripped) must parse as floats. -/
def latlonStrategy (node : Node) : Option (Dec × Dec) :=
  match node.latitudeNode, node.longitudeNode with
  | some lt, some ln =>
    match pyFloat (String.mk (stripL lt.toList)),
          pyFloat (String.mk (stripL ln.toList)) with
    | some a, some b => some (a, b)
    | _, _ => none
  | _, _ => none

/-- Strategy 3: map-link anchor carrying both `data-lat` and `data-lon`
attributes, both parsing as floats. -/
def maplinkStrategy (node : Node) : Option (Dec × Dec) :=
  match node.maplink with
  | none => none
  | some ml =>
    match ml.dataLat, ml.dataLon with
    | some la, some lo =>
      match pyFloat la, pyFloat lo with
      | some a, some b => some (a, b)
      | _, _ => none
    | _, _ => none

/-- `extract_coords_from_node`: try the geo text, then the separate
latitude/longitude elements, then the map-link attributes, in that
order, returning the first pair that parses; `(None, None)` when all
fail.  Each `try/except ValueError: pass` in the source is the
fall-through to the next strategy. -/
def extract_coords_from_node (node : Node) : Option Dec × Option Dec :=
  match geoStrategy node with
  | some (a, b) => (some a, some b)
  | none =>
    match latlonStrategy node with
    | some (a, b) => (some a, some b)
    | none =>
      match maplinkStrategy node with
      | some (a, b) => (some a, some b)
      | none => (none, none)

/-! ## Detail-page parsing (`parse_beds_and_coords_from_hospital`) -/

/-- One row of the infobox as the scraper sees it: the text of its
first `th` (if any) and of its first `td` (if any). -/
structure InfoRow where
  th : Option String
  td : Option String
deriving DecidableEq

/-- A fetched hospital detail page as the scraper inspects it: the
coordinate-bearing markup of the whole document, and the rows of the
first `table.infobox` when one exists. -/
structure Page where
  node : Node
  infobox : Option (List InfoRow)
deriving DecidableEq

/-- First run of digits in the character list, truncated to 4 digits:
the match of `re.search(r"(\d{1,4})", s)` (leftmost start, greedy up to
the quantifier bound). -/
def firstDigitRun : List Char → Option (List Char)
  | [] => none
  | c :: cs =>
    if c.isDigit then some ((c :: cs).takeWhile Char.isDigit |>.take 4)
    else firstDigitRun cs

/-- `int(m.group(1))` for the `\d{1,4}` search over the comma-stripped
raw beds text: strip every comma, find the first digit run, read it as
an integer; `none` when no digit occurs. -/
def extractBedsInt (raw : String) : Option ℕ :=
  (firstDigitRun (raw.toList.filter (· ≠ ','))).map digitsToNat

/-- The infobox scan of `parse_beds_and_coords_from_hospital`: walk the
rows in order; skip rows missing a `th` or a `td`; at the first row
whose cleaned, lower-cased label starts with `"beds"`, record the
cleaned `td` text as `beds_raw` and its first digit run as `beds_int`,
then stop (`break`) whether or not a number was found. -/
def scanInfobox : List InfoRow → Option String × Option ℕ
  | [] => (none, none)
  | row :: rest =>
    match row.th, row.td with
    | some th, some td =>
      if startsWithL (lowerL (_clean_text th).toList) "beds".toList then
        let bedsRaw := _clean_text td
        (some bedsRaw, extractBedsInt bedsRaw)
      else scanInfobox rest
    | _, _ => scanInfobox rest

/-- `parse_beds_and_coords_from_hospital`: on a failed fetch
(`page? = none`) return all-`None`; otherwise extract coordinates from
the whole document and scan the infobox (if any) for the beds row.
Result order matches the source: `(beds_raw, beds_int, lat, lon)`. -/
def parse_beds_and_coords_from_hospital (page? : Option Page) :
    Option String × Option ℕ × Option Dec × Option Dec :=
  match page? with
  | none => (none, none, none, none)
  | some page =>
    let coords := extract_coords_from_node page.node
    let beds :=
      match page.infobox with
      | some rows => scanInfobox rows
      | none => (none, none)
    (beds.1, beds.2, coords.1, coords.2)

/-! ## Listing records and enrichment -/

/-- A listing record, with the fields the scraper's row dictionaries
carry (`Health Authority`, `Facility Name`, `Location City`,
`Latitude`, `Longitude`, `Hospital Page URL`, and after enrichment
`Beds Raw`, `Beds`, `Beds Source URL`).  Absent values (`None`) are
`none`. -/
structure Rec where
  healthAuthority : String
  facilityName : String
  locationCity : String
  latitude : Option Dec
  longitude : Option Dec
  hospitalPageUrl : Option String
  bedsRaw : Option String := none
  beds : Option ℕ := none
  bedsSourceUrl : Option String := none
deriving DecidableEq

/-- Python `a or b` on optional floats: `a` when `a` is truthy (present
and nonzero), otherwise `b` unchanged. -/
def pyOrFloat (a b : Option Dec) : Option Dec :=
  match a with
  | some d => if d.truthy then some d else b
  | none => b

/-- Python truthiness of an optional string: falsy when `None` or
empty. -/
def truthyStr : Option String → Bool
  | none => false
  | some s => s ≠ ""

/-- A run's network behaviour for detail pages: what fetching each URL
yields (`none` models both non-success status and transport error —
`_fetch` returning `None`). -/
def Fetches := String → Option Page

/-- What the worker's conditional fetch produces: the parsed detail
tuple when the record carries a truthy URL (`if url:` — a present,
non-empty string), the all-`None` tuple otherwise. -/
def workerFetched (fetches : Fetches) (rec : Rec) :
    Option String × Option ℕ × Option Dec × Option Dec :=
  match rec.hospitalPageUrl with
  | some u =>
    if u = "" then (none, none, none, none)
    else parse_beds_and_coords_from_hospital (fetches u)
  | none => (none, none, none, none)

/-- The per-record `worker` closure of `enrich_with_hospital_pages`:
fetch and parse the detail page when a URL is present, then merge with
Python `or` (`rec.get("Latitude") or lat2`) and update the record with
the enrichment fields, `Beds Source URL` being the URL only when
`beds_raw` is truthy. -/
def worker (fetches : Fetches) (rec : Rec) : Rec :=
  let url := rec.hospitalPageUrl
  let fetched := workerFetched fetches rec
  let bedsRaw := fetched.1
  let bedsInt := fetched.2.1
  let lat2 := fetched.2.2.1
  let lon2 := fetched.2.2.2
  let lat := pyOrFloat rec.latitude lat2
  let lon := pyOrFloat rec.longitude lon2
  { rec with
      bedsRaw := bedsRaw
      beds := bedsInt
      bedsSourceUrl := if truthyStr bedsRaw then url else none
      latitude := lat
      longitude := lon }

/-- `enrich_with_hospital_pages`: apply `worker` to every record;
`ThreadPoolExecutor.map` yields results in submission order, so the
output order matches the input order. -/
def enrich_with_hospital_pages (fetches : Fetches) (rows : List Rec) :
    List Rec :=
  rows.map (worker fetches)

/-! ## Listing-page parsing (`parse_list_tables`) -/

def WIKI_BASE : String := "https://en.wikipedia.org"

/-- The fixed section list `HEALTH_SECTIONS`. -/
def HEALTH_SECTIONS : List String :=
  ["Fraser Health", "Interior Health", "Island Health",
   "Northern Health", "Vancouver Coastal Health",
   "Provincial Health Services Authority", "Providence Health Care",
   "Other"]

/-- `urllib.parse.urljoin(WIKI_BASE, href)` restricted to the href
forms the listing page carries: absolute URLs pass through, site
paths are resolved against the base origin. -/
def urljoin (base href : String) : String :=
  if href.startsWith "http" then href else base ++ href

/-- One `tr` of a listing wikitable as the scraper inspects it: the
number of `td`/`th` cells, whether the first cell is a `th`, the first
cell's text and first hyperlink target, the second cell's text, and
the row's coordinate markup (which `extract_coords_from_node` reads
from anywhere in the row). -/
structure RawRow where
  numCells : ℕ
  firstIsHeader : Bool
  firstCellText : String
  firstCellHref : Option String
  secondCellText : String
  node : Node

/-- The per-row body of `parse_list_tables`: skip rows with fewer than
2 cells, header-first rows, and rows whose cleaned first-cell text is
empty; otherwise build the base record for the section. -/
def rowToRecord (sectionTitle : String) (row : RawRow) : Option Rec :=
  if row.numCells < 2 then none
  else if row.firstIsHeader then none
  else
    let facility_name := _clean_text row.firstCellText
    if facility_name = "" then none
    else
      let coords := extract_coords_from_node row.node
      some
        { healthAuthority := sectionTitle
          facilityName := facility_name
          locationCity := _clean_text row.secondCellText
          latitude := coords.1
          longitude := coords.2
          hospitalPageUrl :=
            match row.firstCellHref with
            | some href =>
              if href = "" then none else some (urljoin WIKI_BASE href)
            | none => none }

/-- A listing document, abstracted to what the row loop consumes: the
wikitable rows found under each section heading (empty when the
heading is absent — `extract_tables_under_section` returning `[]`). -/
def Doc := String → List RawRow

/-- `parse_list_tables`: concatenate, over the fixed section list, the
records built from each section's rows. -/
def parse_list_tables (doc : Doc) : List Rec :=
  HEALTH_SECTIONS.flatMap (fun s => (doc s).filterMap (rowToRecord s))

/-! ## Page fetcher (`_fetch`) -/

/-- What one HTTP GET attempt comes back with: `.ok (status, body)`
when a response arrives, `.error e` when the request raises a
transport-level exception (DNS, timeout, refused connection) with
message `e`. -/
def FetchOutcome := Except String (ℕ × String)

/-- `_fetch`: return the body iff the status is exactly 200; on any
other status or on a transport exception, emit a warning line on the
diagnostic stream and return `None` (never raise).  Result is
`(returned body, warnings written to stderr)`. -/
def _fetch (url : String) (outcome : FetchOutcome) :
    Option String × List String :=
  match outcome with
  | .ok (status, _body) =>
    if status = 200 then (some _body, [])
    else (none, ["[warn] GET " ++ url ++ " -> " ++ toString status])
  | .error e => (none, ["[warn] GET " ++ url ++ " -> " ++ e])

/-! ## Dataset assembly and `main` -/

/-- The deduplication key:
`drop_duplicates(subset=["Facility Name","Location City"])`,
case-sensitive string pair. -/
def dedupKey (r : Rec) : String × String :=
  (r.facilityName, r.locationCity)

/-- The sort key: `sort_values(["Health Authority","Facility Name"])`,
ascending lexicographic on the string pair. -/
def sortKey (r : Rec) : String × String :=
  (r.healthAuthority, r.facilityName)

/-- Boolean lexicographic comparison on the sort key: strictly smaller
first column, or equal first column and `≤` second column. -/
def sortLe (a b : Rec) : Bool :=
  leCL a.healthAuthority.toList b.healthAuthority.toList &&
    (!(a.healthAuthority == b.healthAuthority) ||
      leCL a.facilityName.toList b.facilityName.toList)

/-- The sort comparison as a relation, for the sorting lemmas. -/
def sortRel (a b : Rec) : Prop :=
  sortLe a b = true

instance : DecidableRel sortRel :=
  fun a b => inferInstanceAs (Decidable (sortLe a b = true))

/-- `df.drop_duplicates(subset=["Facility Name","Location City"])`
with the default `keep="first"`: keep a row iff its key was not seen
on an earlier row. -/
def dropDuplicates : List Rec → List (String × String) → List Rec
  | [], _ => []
  | r :: rs, seen =>
    if dedupKey r ∈ seen then dropDuplicates rs seen
    else r :: dropDuplicates rs (dedupKey r :: seen)

/-- The assembled dataset: deduplicate (first occurrence kept), then
sort by (`Health Authority`, `Facility Name`) ascending.  The model
sorts by insertion sort; pandas `sort_values` uses quicksort by
default, which promises the same multiset and key order but no
particular arrangement of key ties. -/
def assembleRecs (rows : List Rec) : List Rec :=
  List.insertionSort sortRel (dropDuplicates rows [])

/-- Digits of a natural number, most significant first (decimal). -/
def natDigits (n : ℕ) : List Char :=
  (Nat.toDigits 10 n)

/-- Render an optional value through `f`, the empty cell for `None`
(pandas writes absent numerics as empty fields). -/
def cellOf {α : Type} (f : α → String) : Option α → String
  | none => ""
  | some a => f a

/-- Deterministic rendering of a parsed decimal for serialization.
The claims about the output file concern only whether two serialized
outputs are byte-identical, which depends on the record lists alone;
the exact digit format pandas uses for floats is immaterial, so the
model renders the exact decimal value in mantissa/exponent form. -/
def decString (d : Dec) : String :=
  toString d.mant ++ "e-" ++ String.mk (natDigits d.exp)

/-- One CSV data row in the fixed column order passed to
`pd.DataFrame(columns=[...])`. -/
def csvRow (r : Rec) : String :=
  r.healthAuthority ++ "," ++ r.facilityName ++ "," ++
    r.locationCity ++ "," ++ cellOf decString r.latitude ++ "," ++
    cellOf decString r.longitude ++ "," ++
    cellOf (fun n => String.mk (natDigits n)) r.beds ++ "," ++
    cellOf id r.bedsRaw ++ "," ++ cellOf id r.bedsSourceUrl ++ "," ++
    cellOf id r.hospitalPageUrl ++ "\x0a"

/-- `df.to_csv`: header row then one line per record in dataframe
order. -/
def toCsv (rows : List Rec) : String :=
  "Health Authority,Facility Name,Location City,Latitude,Longitude," ++
    "Beds,Beds Raw,Beds Source URL,Hospital Page URL\x0a" ++
    String.join (rows.map csvRow)

/-- The serialized dataset the assembler writes for a record list. -/
def assembleCsv (rows : List Rec) : String :=
  toCsv (assembleRecs rows)

/-- Observable outcome of one run of `main`: the process exit code,
the CSV written to the output path (`none` when the run aborts before
writing), and the final stdout line. -/
structure RunOutcome where
  exitCode : ℕ
  outFile : Option String
  stdoutLine : Option String
deriving DecidableEq

/-- `main`: abort with exit code 2 when the list page cannot be
fetched, with exit code 3 when no row parses from it; otherwise
enrich, assemble, write the CSV, print the row-count summary and
return normally (process exit code 0).  `listPage` is the fetched
listing document (`none` = `_fetch` returned `None`), `fetches` the
run's detail-page outcomes. -/
def main (listPage : Option Doc) (fetches : Fetches) : RunOutcome :=
  match listPage with
  | none => ⟨2, none, none⟩
  | some doc =>
    let base_rows := parse_list_tables doc
    if base_rows.isEmpty then ⟨3, none, none⟩
    else
      let full_rows := enrich_with_hospital_pages fetches base_rows
      let df := assembleRecs full_rows
      ⟨0, some (toCsv df),
        some ("Wrote bc_hospitals_from_wikipedia.csv with " ++
          String.mk (natDigits df.length) ++ " rows.")⟩

/-! ## Concrete instances used by witnesses and counterexamples -/

/-- A run in which every detail fetch fails. -/
def noFetches : Fetches := fun _ => none

/-- A listing record whose listing-page coordinates are
`(0.0, 49.0)` — both present, latitude zero (hence falsy). -/
def zeroLatRec : Rec :=
  ⟨"Fraser Health", "Mercy Hospital", "Surrey",
    some ⟨0, 0⟩, some ⟨49, 0⟩, none, none, none, none⟩

/-- A record with listing coordinates `(0.0, 10.0)` and a detail
link. -/
def overwriteRec : Rec :=
  ⟨"Fraser Health", "Mercy Hospital", "Surrey",
    some ⟨0, 0⟩, some ⟨10, 0⟩,
    some "https://en.wikipedia.org/wiki/Mercy_Hospital",
    none, none, none⟩

/-- A detail page reporting coordinates `(5, 6)` in its geo
element. -/
def overwritePage : Page :=
  ⟨⟨some "5; 6", none, none, none⟩, none⟩

/-- A run resolving `overwriteRec`'s detail link to
`overwritePage`. -/
def overwriteFetches : Fetches := fun u =>
  if u = "https://en.wikipedia.org/wiki/Mercy_Hospital" then
    some overwritePage
  else none

/-- A record with listing coordinates `(0.0, 48.0)` and a detail link
whose fetch will fail. -/
def failFetchRec : Rec :=
  ⟨"Island Health", "St. Jude Hospital", "Victoria",
    some ⟨0, 0⟩, some ⟨48, 0⟩,
    some "https://en.wikipedia.org/wiki/St._Jude_Hospital",
    none, none, none⟩

/-- A detail page whose infobox has a `Beds` row with an empty value
cell. -/
def emptyBedsPage : Page :=
  ⟨⟨none, none, none, none⟩, some [⟨some "Beds", some ""⟩]⟩

/-- A run resolving every URL to `emptyBedsPage`. -/
def emptyBedsFetches : Fetches := fun _ => some emptyBedsPage

/-- A record with a detail link and no listing coordinates. -/
def emptyBedsRec : Rec :=
  ⟨"Other", "General Hospital", "Nanaimo", none, none,
    some "https://en.wikipedia.org/wiki/General_Hospital",
    none, none, none⟩

/-- Two records sharing the deduplication key `(name, city)` but
differing in their `Beds` field. -/
def dupRecA : Rec :=
  ⟨"Fraser Health", "Twin Hospital", "Hope", none, none, none,
    none, some 100, none⟩

/-- `dupRecA` with a different bed count. -/
def dupRecB : Rec := { dupRecA with beds := some 200 }

/-- A listing document with no recognizable rows under any
section. -/
def emptyDoc : Doc := fun _ => []

/-- A listing document with one well-formed facility row under the
first section. -/
def oneRowDoc : Doc := fun s =>
  if s = "Fraser Health" then
    [⟨2, false, "Alpha Hospital", none, "Abbotsford",
      ⟨none, none, none, none⟩⟩]
  else []

/-! ## Order properties of the sort comparison -/

theorem toList_inj {s t : String} (h : s.toList = t.toList) : s = t := by
  cases s
  cases t
  exact congrArg String.mk h

theorem leCL_refl (l : List Char) : leCL l l = true := by
  induction l with
  | nil => rfl
  | cons c cs ih => simp [leCL, lt_irrefl, ih]

theorem leCL_total (l₁ l₂ : List Char) :
    leCL l₁ l₂ = true ∨ leCL l₂ l₁ = true := by
  induction l₁ generalizing l₂ with
  | nil => exact Or.inl rfl
  | cons c cs ih =>
    cases l₂ with
    | nil => exact Or.inr rfl
    | cons d ds =>
      rcases lt_trichotomy c d with h | h | h
      · exact Or.inl (by simp [leCL, h])
      · subst h
        rcases ih ds with h2 | h2
        · exact Or.inl (by simp [leCL, lt_irrefl, h2])
        · exact Or.inr (by simp [leCL, lt_irrefl, h2])
      · exact Or.inr (by simp [leCL, h])

theorem leCL_trans : ∀ {l₁ l₂ l₃ : List Char},
    leCL l₁ l₂ = true → leCL l₂ l₃ = true → leCL l₁ l₃ = true := by
  intro l₁
  induction l₁ with
  | nil => intro l₂ l₃ _ _; rfl
  | cons c cs ih =>
    intro l₂ l₃ h₁ h₂
    cases l₂ with
    | nil => simp [leCL] at h₁
    | cons d ds =>
      cases l₃ with
      | nil => simp [leCL] at h₂
      | cons e es =>
        rcases lt_trichotomy c d with hcd | hcd | hcd
        · rcases lt_trichotomy d e with hde | hde | hde
          · simp [leCL, lt_trans hcd hde]
          · subst hde; simp [leCL, hcd]
          · simp [leCL, hde, lt_asymm hde] at h₂
        · subst hcd
          simp only [leCL, lt_irrefl, if_neg (lt_irrefl c)] at h₁
          rcases lt_trichotomy c e with hde | hde | hde
          · simp [leCL, hde]
          · subst hde
            simp only [leCL, lt_irrefl, if_neg (lt_irrefl c)] at h₂ ⊢
            exact ih h₁ h₂
          · simp [leCL, hde, lt_asymm hde] at h₂
        · simp [leCL, hcd, lt_asymm hcd] at h₁

theorem leCL_antisymm : ∀ {l₁ l₂ : List Char},
    leCL l₁ l₂ = true → leCL l₂ l₁ = true → l₁ = l₂ := by
  intro l₁
  induction l₁ with
  | nil =>
    intro l₂ _ h₂
    cases l₂ with
    | nil => rfl
    | cons d ds => simp [leCL] at h₂
  | cons c cs ih =>
    intro l₂ h₁ h₂
    cases l₂ with
    | nil => simp [leCL] at h₁
    | cons d ds =>
      rcases lt_trichotomy c d with hcd | hcd | hcd
      · simp [leCL, hcd, lt_asymm hcd] at h₂
      · subst hcd
        simp only [leCL, lt_irrefl, if_neg (lt_irrefl c)] at h₁ h₂
        rw [ih h₁ h₂]
      · simp [leCL, hcd, lt_asymm hcd] at h₁

theorem sortLe_parts {a b : Rec} (h : sortLe a b = true) :
    leCL a.healthAuthority.toList b.healthAuthority.toList = true ∧
      (a.healthAuthority = b.healthAuthority →
        leCL a.facilityName.toList b.facilityName.toList = true) := by
  unfold sortLe at h
  simp only [Bool.and_eq_true, Bool.or_eq_true, Bool.not_eq_true',
    decide_eq_false_iff_not, decide_eq_true_eq, beq_iff_eq,
    beq_eq_false_iff_ne, ne_eq] at h
  refine ⟨h.1, fun heq => ?_⟩
  rcases h.2 with h2 | h2
  · exact absurd heq h2
  · exact h2

theorem sortLe_of_parts {a b : Rec}
    (h1 : leCL a.healthAuthority.toList b.healthAuthority.toList = true)
    (h2 : a.healthAuthority = b.healthAuthority →
      leCL a.facilityName.toList b.facilityName.toList = true) :
    sortLe a b = true := by
  unfold sortLe
  simp only [Bool.and_eq_true, Bool.or_eq_true, Bool.not_eq_true',
    decide_eq_false_iff_not, decide_eq_true_eq, beq_iff_eq,
    beq_eq_false_iff_ne, ne_eq]
  refine ⟨h1, ?_⟩
  by_cases heq : a.healthAuthority = b.healthAuthority
  · exact Or.inr (h2 heq)
  · exact Or.inl heq

instance : IsTotal Rec sortRel := by
  constructor
  intro a b
  by_cases h : a.healthAuthority = b.healthAuthority
  · have hcongr : a.healthAuthority.toList = b.healthAuthority.toList :=
      congrArg String.toList h
    rcases leCL_total a.facilityName.toList b.facilityName.toList with
      h2 | h2
    · exact Or.inl (sortLe_of_parts (hcongr ▸ leCL_refl _)
        (fun _ => h2))
    · exact Or.inr (sortLe_of_parts (hcongr ▸ leCL_refl _)
        (fun _ => h2))
  · rcases leCL_total a.healthAuthority.toList
        b.healthAuthority.toList with h2 | h2
    · exact Or.inl (sortLe_of_parts h2 (fun heq => absurd heq h))
    · exact Or.inr (sortLe_of_parts h2
        (fun heq => absurd heq.symm h))

instance : IsTrans Rec sortRel := by
  constructor
  intro a b c h₁ h₂
  have p₁ := sortLe_parts h₁
  have p₂ := sortLe_parts h₂
  apply sortLe_of_parts (leCL_trans p₁.1 p₂.1)
  intro heq
  have hba : leCL b.healthAuthority.toList a.healthAuthority.toList
      = true := by
    rw [heq]; exact p₂.1
  have hab : a.healthAuthority = b.healthAuthority :=
    toList_inj (leCL_antisymm p₁.1 hba)
  have hbc : b.healthAuthority = c.healthAuthority := hab ▸ heq
  exact leCL_trans (p₁.2 hab) (p₂.2 hbc)

theorem sortRel_antisymm_key {a b : Rec}
    (h₁ : sortRel a b) (h₂ : sortRel b a) : sortKey a = sortKey b := by
  have p₁ := sortLe_parts h₁
  have p₂ := sortLe_parts h₂
  have hha : a.healthAuthority = b.healthAuthority :=
    toList_inj (leCL_antisymm p₁.1 p₂.1)
  have hn : a.facilityName = b.facilityName :=
    toList_inj (leCL_antisymm (p₁.2 hha) (p₂.2 hha.symm))
  unfold sortKey
  rw [hha, hn]

/-! ## Deduplication lemmas -/

theorem mem_dropDuplicates_not_seen :
    ∀ {l : List Rec} {seen : List (String × String)} {r : Rec},
      r ∈ dropDuplicates l seen → dedupKey r ∉ seen := by
  intro l
  induction l with
  | nil => intro seen r h; simp [dropDuplicates] at h
  | cons x xs ih =>
    intro seen r h
    unfold dropDuplicates at h
    by_cases hx : dedupKey x ∈ seen
    · rw [if_pos hx] at h
      exact ih h
    · rw [if_neg hx] at h
      rcases List.mem_cons.mp h with rfl | h'
      · exact hx
      · intro hc
        exact ih h' (List.mem_cons_of_mem _ hc)

theorem mem_of_mem_dropDuplicates :
    ∀ {l : List Rec} {seen : List (String × String)} {r : Rec},
      r ∈ dropDuplicates l seen → r ∈ l := by
  intro l
  induction l with
  | nil => intro seen r h; simp [dropDuplicates] at h
  | cons x xs ih =>
    intro seen r h
    unfold dropDuplicates at h
    by_cases hx : dedupKey x ∈ seen
    · rw [if_pos hx] at h
      exact List.mem_cons_of_mem _ (ih h)
    · rw [if_neg hx] at h
      rcases List.mem_cons.mp h with rfl | h'
      · exact List.mem_cons_self _ _
      · exact List.mem_cons_of_mem _ (ih h')

theorem dropDuplicates_find? :
    ∀ {l : List Rec} {seen : List (String × String)} {r : Rec},
      r ∈ dropDuplicates l seen →
      l.find? (fun x => decide (dedupKey x = dedupKey r)) = some r := by
  intro l
  induction l with
  | nil => intro seen r h; simp [dropDuplicates] at h
  | cons x xs ih =>
    intro seen r h
    unfold dropDuplicates at h
    by_cases hx : dedupKey x ∈ seen
    · rw [if_pos hx] at h
      have hr : dedupKey r ∉ seen := mem_dropDuplicates_not_seen h
      have hne :
          ¬ ((fun y => decide (dedupKey y = dedupKey r)) x = true) := by
        simp only [decide_eq_true_eq]
        intro hc
        exact hr (hc ▸ hx)
      rw [List.find?_cons_of_neg
        (p := fun y => decide (dedupKey y = dedupKey r)) xs hne]
      exact ih h
    · rw [if_neg hx] at h
      rcases List.mem_cons.mp h with rfl | h'
      · rw [List.find?_cons_of_pos
          (p := fun y => decide (dedupKey y = dedupKey r)) xs (by simp)]
      · have hr : dedupKey r ∉ dedupKey x :: seen :=
          mem_dropDuplicates_not_seen h'
        have hne :
            ¬ ((fun y => decide (dedupKey y = dedupKey r)) x = true) := by
          simp only [decide_eq_true_eq]
          intro hc
          exact hr (hc ▸ List.mem_cons_self _ _)
        rw [List.find?_cons_of_neg
          (p := fun y => decide (dedupKey y = dedupKey r)) xs hne]
        exact ih h'

theorem dropDuplicates_pairwise :
    ∀ {l : List Rec} {seen : List (String × String)},
      (dropDuplicates l seen).Pairwise
        (fun a b => dedupKey a ≠ dedupKey b) := by
  intro l
  induction l with
  | nil => intro seen; simp [dropDuplicates]
  | cons x xs ih =>
    intro seen
    unfold dropDuplicates
    by_cases hx : dedupKey x ∈ seen
    · rw [if_pos hx]
      exact ih
    · rw [if_neg hx]
      refine List.Pairwise.cons (fun y hy => ?_) ih
      have := mem_dropDuplicates_not_seen hy
      intro hc
      exact this (hc ▸ List.mem_cons_self _ _)

theorem dropDuplicates_eq_self :
    ∀ {l : List Rec} {seen : List (String × String)},
      l.Pairwise (fun a b => dedupKey a ≠ dedupKey b) →
      (∀ x ∈ l, dedupKey x ∉ seen) → dropDuplicates l seen = l := by
  intro l
  induction l with
  | nil => intro seen _ _; rfl
  | cons x xs ih =>
    intro seen hp hseen
    unfold dropDuplicates
    rw [if_neg (hseen x (List.mem_cons_self _ _))]
    congr 1
    apply ih (List.pairwise_cons.mp hp).2
    intro y hy
    intro hc
    rcases List.mem_cons.mp hc with hc' | hc'
    · exact (List.pairwise_cons.mp hp).1 y hy hc'.symm
    · exact hseen y (List.mem_cons_of_mem _ hy) hc'

/-! ## Sorted permutations with distinct keys are equal -/

theorem sorted_perm_eq :
    ∀ {l₁ l₂ : List Rec}, l₁.Perm l₂ → (l₁.map sortKey).Nodup →
      l₁.Sorted sortRel → l₂.Sorted sortRel → l₁ = l₂ := by
  intro l₁
  induction l₁ with
  | nil =>
    intro l₂ hp _ _ _
    exact (hp.symm.eq_nil).symm
  | cons a t ih =>
    intro l₂ hp hnd hs₁ hs₂
    cases l₂ with
    | nil => exact absurd hp.eq_nil (by simp)
    | cons b t₂ =>
      have hb : b ∈ a :: t := hp.symm.subset (List.mem_cons_self _ _)
      by_cases hab : a = b
      · subst hab
        have ht : t.Perm t₂ := hp.cons_inv
        rw [ih ht (List.Nodup.of_cons hnd) hs₁.of_cons hs₂.of_cons]
      · exfalso
        have hb' : b ∈ t := by
          rcases List.mem_cons.mp hb with hc | hc
          · exact absurd hc.symm hab
          · exact hc
        have ha : a ∈ b :: t₂ := hp.subset (List.mem_cons_self _ _)
        have ha' : a ∈ t₂ := by
          rcases List.mem_cons.mp ha with hc | hc
          · exact absurd hc hab
          · exact hc
        have hrab : sortRel a b := (List.sorted_cons.mp hs₁).1 b hb'
        have hrba : sortRel b a := (List.sorted_cons.mp hs₂).1 a ha'
        have hk : sortKey a = sortKey b := sortRel_antisymm_key hrab hrba
        have h1 : sortKey a ∉ t.map sortKey := (List.nodup_cons.mp hnd).1
        exact h1 (hk ▸ List.mem_map_of_mem sortKey hb')

/-! ## Coordinate pairing and worker lemmas -/

theorem extract_coords_pair (n : Node) :
    (extract_coords_from_node n).1 = none ↔
      (extract_coords_from_node n).2 = none := by
  unfold extract_coords_from_node
  cases geoStrategy n with
  | some p => obtain ⟨a, b⟩ := p; simp
  | none =>
    cases latlonStrategy n with
    | some p => obtain ⟨a, b⟩ := p; simp
    | none =>
      cases maplinkStrategy n with
      | some p => obtain ⟨a, b⟩ := p; simp
      | none => simp

theorem workerFetched_pair (fetches : Fetches) (rec : Rec) :
    (workerFetched fetches rec).2.2.1 = none ↔
      (workerFetched fetches rec).2.2.2 = none := by
  unfold workerFetched
  cases rec.hospitalPageUrl with
  | none => simp
  | some u =>
    dsimp only
    by_cases hu : u = ""
    · simp [hu]
    · rw [if_neg hu]
      unfold parse_beds_and_coords_from_hospital
      cases fetches u with
      | none => simp
      | some page => simpa using extract_coords_pair page.node

theorem workerFetched_of_failed {fetches : Fetches} {rec : Rec}
    {u : String} (hu : rec.hospitalPageUrl = some u)
    (hf : fetches u = none) :
    workerFetched fetches rec = (none, none, none, none) := by
  unfold workerFetched
  rw [hu]
  dsimp only
  by_cases hu0 : u = ""
  · rw [if_pos hu0]
  · rw [if_neg hu0, hf]
    rfl

theorem worker_latitude (fetches : Fetches) (rec : Rec) :
    (worker fetches rec).latitude =
      pyOrFloat rec.latitude (workerFetched fetches rec).2.2.1 := rfl

theorem worker_longitude (fetches : Fetches) (rec : Rec) :
    (worker fetches rec).longitude =
      pyOrFloat rec.longitude (workerFetched fetches rec).2.2.2 := rfl

theorem worker_bedsRaw (fetches : Fetches) (rec : Rec) :
    (worker fetches rec).bedsRaw = (workerFetched fetches rec).1 := rfl

theorem worker_beds (fetches : Fetches) (rec : Rec) :
    (worker fetches rec).beds = (workerFetched fetches rec).2.1 := rfl

theorem worker_bedsSourceUrl (fetches : Fetches) (rec : Rec) :
    (worker fetches rec).bedsSourceUrl =
      (if truthyStr (workerFetched fetches rec).1 then
        rec.hospitalPageUrl else none) := rfl

theorem worker_unchanged_fields (fetches : Fetches) (rec : Rec) :
    (worker fetches rec).healthAuthority = rec.healthAuthority ∧
      (worker fetches rec).facilityName = rec.facilityName ∧
      (worker fetches rec).locationCity = rec.locationCity ∧
      (worker fetches rec).hospitalPageUrl = rec.hospitalPageUrl :=
  ⟨rfl, rfl, rfl, rfl⟩

/-! ## Claim C6: fetch success criterion -/

/-- Claim C6 (amended): `_fetch` returns the body exactly when the
status is 200 — not for the whole 2xx success range; on any other
status, and on any transport-level failure, it writes one warning to
the diagnostic stream and returns Absent, never raising. -/
theorem c6_fetch_status_amended :
    (∀ (url body : String),
      _fetch url (Except.ok (200, body)) = (some body, [])) ∧
    (∀ (url : String) (status : ℕ) (body : String), status ≠ 200 →
      _fetch url (Except.ok (status, body)) =
        (none, ["[warn] GET " ++ url ++ " -> " ++ toString status])) ∧
    (∀ (url e : String),
      _fetch url (Except.error e) =
        (none, ["[warn] GET " ++ url ++ " -> " ++ e])) := by
  refine ⟨fun url body => rfl, fun url status body h => ?_,
    fun url e => rfl⟩
  simp only [_fetch]
  rw [if_neg h]

/-- Claim C6 witness: a 404 response yields Absent plus a warning. -/
theorem c6_witness :
    _fetch "https://example.org/x" (Except.ok (404, "nf")) =
      (none, ["[warn] GET https://example.org/x -> 404"]) :=
  c6_fetch_status_amended.2.1 "https://example.org/x" 404 "nf"
    (by decide)

/-- Claim C6 counterexample: status 204 lies in the 2xx success range,
yet `_fetch` discards the body and warns — the claim's "success (2xx)
range" does not hold of the code, which tests `== 200`. -/
theorem c6_counterexample :
    (200 ≤ 204 ∧ 204 < 300) ∧
    _fetch "https://example.org/x" (Except.ok (204, "body")) =
      (none, ["[warn] GET https://example.org/x -> 204"]) := by
  decide

/-! ## Claim C7: capacity extraction -/

/-- Claim C7 (confirmed): the infobox scan takes the first row whose
normalized label starts with "beds" case-insensitively, sets
`capacity_raw` to that row's cleaned value text and `capacity` to the
first run of 1–4 digits after stripping commas, keeps `capacity`
absent when no digit run exists, ignores all later rows, and in
particular label "Beds (2020)" with value "312 (acute)" yields 312
and "312 (acute)". -/
theorem c7_capacity_extraction :
    (∀ (th td : String) (rest : List InfoRow),
      startsWithL (lowerL (_clean_text th).toList) "beds".toList
        = true →
      scanInfobox (⟨some th, some td⟩ :: rest) =
        (some (_clean_text td), extractBedsInt (_clean_text td))) ∧
    (∀ (row : InfoRow) (rest : List InfoRow),
      (row.th = none ∨ row.td = none ∨
        (∀ th, row.th = some th →
          startsWithL (lowerL (_clean_text th).toList) "beds".toList
            = false)) →
      scanInfobox (row :: rest) = scanInfobox rest) ∧
    scanInfobox [⟨some "Beds (2020)", some "312 (acute)"⟩,
        ⟨some "Beds", some "999"⟩] = (some "312 (acute)", some 312) ∧
    scanInfobox [⟨some "Beds", some "1,234 licensed"⟩] =
      (some "1,234 licensed", some 1234) ∧
    scanInfobox [⟨some "Beds", some "unknown"⟩] =
      (some "unknown", none) := by
  refine ⟨fun th td rest h => ?_, fun row rest h => ?_,
    by decide, by decide, by decide⟩
  · simp only [scanInfobox]
    rw [if_pos h]
  · obtain ⟨tho, tdo⟩ := row
    cases tho with
    | none => rfl
    | some th =>
      cases tdo with
      | none => rfl
      | some td =>
        rcases h with h | h | h
        · cases h
        · cases h
        · simp only [scanInfobox]
          rw [if_neg (by rw [h th rfl]; exact Bool.false_ne_true)]

/-- Claim C7 witness: the first-match rule applied to the concrete
"Beds (2020)" / "312 (acute)" row. -/
theorem c7_witness :
    scanInfobox [⟨some "Beds (2020)", some "312 (acute)"⟩] =
      (some (_clean_text "312 (acute)"),
        extractBedsInt (_clean_text "312 (acute)")) :=
  c7_capacity_extraction.1 "Beds (2020)" "312 (acute)" [] (by decide)

/-! ## Claim C8: coordinate strategy priority -/

/-- Claim C8 (confirmed): `extract_coords_from_node` tries the
combined geotag, then the separate latitude/longitude elements, then
the map-link attributes, adopting the first strategy that parses,
falling through on any parse failure, yielding `(Absent, Absent)`
when all fail; concretely, when a geotag and a map-link disagree the
geotag wins. -/
theorem c8_coord_strategy_priority :
    (∀ (n : Node) (p : Dec × Dec), geoStrategy n = some p →
      extract_coords_from_node n = (some p.1, some p.2)) ∧
    (∀ (n : Node) (p : Dec × Dec), geoStrategy n = none →
      latlonStrategy n = some p →
      extract_coords_from_node n = (some p.1, some p.2)) ∧
    (∀ (n : Node) (p : Dec × Dec), geoStrategy n = none →
      latlonStrategy n = none → maplinkStrategy n = some p →
      extract_coords_from_node n = (some p.1, some p.2)) ∧
    (∀ n : Node, geoStrategy n = none → latlonStrategy n = none →
      maplinkStrategy n = none →
      extract_coords_from_node n = (none, none)) ∧
    (maplinkStrategy
        ⟨some "1.5; 2.5", none, none, some ⟨some "3", some "4"⟩⟩ =
      some (⟨3, 0⟩, ⟨4, 0⟩) ∧
    extract_coords_from_node
        ⟨some "1.5; 2.5", none, none, some ⟨some "3", some "4"⟩⟩ =
      (some ⟨15, 1⟩, some ⟨25, 1⟩)) := by
  refine ⟨fun n p h => ?_, fun n p h1 h2 => ?_,
    fun n p h1 h2 h3 => ?_, fun n h1 h2 h3 => ?_, by decide⟩
  · obtain ⟨a, b⟩ := p
    unfold extract_coords_from_node
    rw [h]
  · obtain ⟨a, b⟩ := p
    unfold extract_coords_from_node
    rw [h1, h2]
  · obtain ⟨a, b⟩ := p
    unfold extract_coords_from_node
    rw [h1, h2, h3]
  · unfold extract_coords_from_node
    rw [h1, h2, h3]

/-- Claim C8 witness: the geotag strategy applied to the disagreement
fragment wins over the map link. -/
theorem c8_witness :
    extract_coords_from_node
        ⟨some "1.5; 2.5", none, none, some ⟨some "3", some "4"⟩⟩ =
      (some ⟨15, 1⟩, some ⟨25, 1⟩) :=
  c8_coord_strategy_priority.1
    ⟨some "1.5; 2.5", none, none, some ⟨some "3", some "4"⟩⟩
    (⟨15, 1⟩, ⟨25, 1⟩) (by decide)

/-! ## Claim C9: run exit codes -/

/-- Claim C9 (confirmed): an unreachable primary source exits with
code 2, a primary source with zero parsed records exits with code 3
(distinct, both non-zero), neither writes any output file; on success
the run writes the CSV, prints the row-count summary and exits 0. -/
theorem c9_exit_codes :
    (∀ fetches : Fetches, main none fetches = ⟨2, none, none⟩) ∧
    (∀ (doc : Doc) (fetches : Fetches), parse_list_tables doc = [] →
      main (some doc) fetches = ⟨3, none, none⟩) ∧
    (∀ (doc : Doc) (fetches : Fetches), parse_list_tables doc ≠ [] →
      main (some doc) fetches =
        ⟨0,
         some (assembleCsv
           (enrich_with_hospital_pages fetches (parse_list_tables doc))),
         some ("Wrote bc_hospitals_from_wikipedia.csv with " ++
           String.mk (natDigits (assembleRecs
             (enrich_with_hospital_pages fetches
               (parse_list_tables doc))).length) ++ " rows.")⟩) ∧
    ((2 : ℕ) ≠ 0 ∧ (3 : ℕ) ≠ 0 ∧ (2 : ℕ) ≠ 3) := by
  refine ⟨fun fetches => rfl, fun doc fetches h => ?_,
    fun doc fetches h => ?_, by decide⟩
  · simp only [main]
    rw [if_pos (by rw [h]; rfl)]
  · simp only [main]
    rw [if_neg (by rw [List.isEmpty_iff]; exact h)]
    rfl

/-- Claim C9 witness: a one-facility document runs to completion with
exit code 0 and a summary line. -/
theorem c9_witness :
    main (some oneRowDoc) noFetches =
      ⟨0,
       some (assembleCsv (enrich_with_hospital_pages noFetches
         (parse_list_tables oneRowDoc))),
       some ("Wrote bc_hospitals_from_wikipedia.csv with " ++
         String.mk (natDigits (assembleRecs
           (enrich_with_hospital_pages noFetches
             (parse_list_tables oneRowDoc))).length) ++ " rows.")⟩ :=
  c9_exit_codes.2.2.1 oneRowDoc noFetches (by decide)

/-! ## Claim C1: enrichment never overwrites coordinates -/

/-- Claim C1 counterexample: `overwriteRec` carries coordinates
`(0.0, 10.0)` before enrichment, yet after enrichment its latitude is
the detail page's 5 — Python's `or` treats the present value `0.0` as
absent, so "never overwrites" fails as stated. -/
theorem c1_counterexample :
    overwriteRec.latitude = some ⟨0, 0⟩ ∧
    overwriteRec.longitude = some ⟨10, 0⟩ ∧
    enrich_with_hospital_pages overwriteFetches [overwriteRec] =
      [{ overwriteRec with
          latitude := some ⟨5, 0⟩
          longitude := some ⟨10, 0⟩ }] := by
  decide

/-- Claim C1 (amended): enrichment never overwrites a coordinate that
is present with a truthy (nonzero) value; a coordinate that is absent
is filled from the detail-page extraction (and a present `0.0` is
likewise replaced, since the merge is Python `or`).  Enrichment maps
the worker over the records in order. -/
theorem c1_first_writer_wins_amended :
    (∀ (fetches : Fetches) (recs : List Rec),
      enrich_with_hospital_pages fetches recs =
        recs.map (worker fetches)) ∧
    (∀ (fetches : Fetches) (rec : Rec) (d : Dec),
      rec.latitude = some d → d.truthy = true →
      (worker fetches rec).latitude = rec.latitude) ∧
    (∀ (fetches : Fetches) (rec : Rec) (d : Dec),
      rec.longitude = some d → d.truthy = true →
      (worker fetches rec).longitude = rec.longitude) ∧
    (∀ (fetches : Fetches) (rec : Rec),
      rec.latitude = none →
      (worker fetches rec).latitude =
        (workerFetched fetches rec).2.2.1) ∧
    (∀ (fetches : Fetches) (rec : Rec),
      rec.longitude = none →
      (worker fetches rec).longitude =
        (workerFetched fetches rec).2.2.2) := by
  refine ⟨fun fetches recs => rfl, fun fetches rec d hd ht => ?_,
    fun fetches rec d hd ht => ?_, fun fetches rec hd => ?_,
    fun fetches rec hd => ?_⟩
  · rw [worker_latitude, hd]
    simp [pyOrFloat, ht]
  · rw [worker_longitude, hd]
    simp [pyOrFloat, ht]
  · rw [worker_latitude, hd]
    rfl
  · rw [worker_longitude, hd]
    rfl

/-- Claim C1 witness: a record with truthy coordinates keeps its
latitude across a fetch that reports different coordinates. -/
theorem c1_witness :
    (worker overwriteFetches
      ⟨"Fraser Health", "Keep Hospital", "Delta", some ⟨49, 0⟩,
        some ⟨-123, 0⟩,
        some "https://en.wikipedia.org/wiki/Mercy_Hospital",
        none, none, none⟩).latitude = some ⟨49, 0⟩ :=
  c1_first_writer_wins_amended.2.1 overwriteFetches
    ⟨"Fraser Health", "Keep Hospital", "Delta", some ⟨49, 0⟩,
      some ⟨-123, 0⟩,
      some "https://en.wikipedia.org/wiki/Mercy_Hospital",
      none, none, none⟩ ⟨49, 0⟩ rfl (by decide)

/-! ## Claim C2: latitude and longitude are paired -/

/-- Claim C2 counterexample: `zeroLatRec` has both coordinates present
(`0.0`, `49.0`); after enrichment with a failing fetch its latitude is
absent while its longitude is still present — the pairing invariant
breaks at a zero coordinate, which Python `or` drops. -/
theorem c2_counterexample :
    zeroLatRec.latitude ≠ none ∧ zeroLatRec.longitude ≠ none ∧
    enrich_with_hospital_pages noFetches [zeroLatRec] =
      [{ zeroLatRec with
          latitude := none
          longitude := some ⟨49, 0⟩ }] := by
  decide

/-- Claim C2 (amended): records built from listing rows always carry
latitude and longitude together; the worker preserves the pairing for
every record whose present coordinates are truthy (nonzero); and every
record of the assembled dataset is one of the input records, so the
pairing carries through assembly. -/
theorem c2_coords_paired_amended :
    (∀ (s : String) (row : RawRow) (r : Rec),
      rowToRecord s row = some r →
      (r.latitude = none ↔ r.longitude = none)) ∧
    (∀ (fetches : Fetches) (rec : Rec),
      (rec.latitude = none ↔ rec.longitude = none) →
      (∀ d, rec.latitude = some d → d.truthy = true) →
      (∀ d, rec.longitude = some d → d.truthy = true) →
      ((worker fetches rec).latitude = none ↔
        (worker fetches rec).longitude = none)) ∧
    (∀ (l : List Rec) (r : Rec), r ∈ assembleRecs l → r ∈ l) := by
  refine ⟨fun s row r h => ?_, fun fetches rec hiff htl htl2 => ?_,
    fun l r h => ?_⟩
  · simp only [rowToRecord] at h
    by_cases h1 : row.numCells < 2
    · rw [if_pos h1] at h
      cases h
    · rw [if_neg h1] at h
      by_cases h2 : row.firstIsHeader = true
      · rw [if_pos h2] at h
        cases h
      · rw [if_neg h2] at h
        by_cases h3 : _clean_text row.firstCellText = ""
        · rw [if_pos h3] at h
          cases h
        · rw [if_neg h3] at h
          injection h with h
          subst h
          exact extract_coords_pair row.node
  · rw [worker_latitude, worker_longitude]
    cases hl : rec.latitude with
    | some d =>
      have ht := htl d hl
      cases hlon : rec.longitude with
      | none =>
        rw [hiff.mpr hlon] at hl
        cases hl
      | some e =>
        have ht2 := htl2 e hlon
        simp [pyOrFloat, ht, ht2]
    | none =>
      have hlon : rec.longitude = none := hiff.mp hl
      rw [hlon]
      simpa [pyOrFloat] using workerFetched_pair fetches rec
  · exact mem_of_mem_dropDuplicates
      ((List.perm_insertionSort sortRel _).subset h)

/-- Claim C2 witness: the worker keeps the pairing on a record with
truthy coordinates and a failing fetch. -/
theorem c2_witness :
    ((worker noFetches
        ⟨"Island Health", "Pair Hospital", "Sooke", some ⟨49, 0⟩,
          some ⟨-124, 0⟩, some "https://en.wikipedia.org/wiki/Pair",
          none, none, none⟩).latitude = none ↔
      (worker noFetches
        ⟨"Island Health", "Pair Hospital", "Sooke", some ⟨49, 0⟩,
          some ⟨-124, 0⟩, some "https://en.wikipedia.org/wiki/Pair",
          none, none, none⟩).longitude = none) :=
  c2_coords_paired_amended.2.1 noFetches
    ⟨"Island Health", "Pair Hospital", "Sooke", some ⟨49, 0⟩,
      some ⟨-124, 0⟩, some "https://en.wikipedia.org/wiki/Pair",
      none, none, none⟩
    (by decide) (fun d hd => by cases hd; decide)
    (fun d hd => by cases hd; decide)

/-! ## Claim C5: failed detail fetch passes the record through -/

/-- Claim C5 counterexample: `failFetchRec`'s detail fetch fails, yet
the record does not pass through unchanged — its zero latitude is
nulled by the truthiness merge, so the output differs from the record
with only the enrichment fields nulled. -/
theorem c5_counterexample :
    failFetchRec.hospitalPageUrl =
      some "https://en.wikipedia.org/wiki/St._Jude_Hospital" ∧
    noFetches "https://en.wikipedia.org/wiki/St._Jude_Hospital" =
      none ∧
    worker noFetches failFetchRec ≠
      { failFetchRec with
          bedsRaw := none
          beds := none
          bedsSourceUrl := none } := by
  decide

/-- Claim C5 (amended): when the detail fetch fails, a record whose
present coordinates are truthy (nonzero) passes through enrichment
unchanged except for explicitly null enrichment fields, and the run
continues: enrichment processes each remaining record
independently. -/
theorem c5_failed_fetch_amended :
    (∀ (fetches : Fetches) (rec : Rec) (u : String),
      rec.hospitalPageUrl = some u → fetches u = none →
      (∀ d, rec.latitude = some d → d.truthy = true) →
      (∀ d, rec.longitude = some d → d.truthy = true) →
      worker fetches rec =
        { rec with
            bedsRaw := none
            beds := none
            bedsSourceUrl := none }) ∧
    (∀ (fetches : Fetches) (r : Rec) (rest : List Rec),
      enrich_with_hospital_pages fetches (r :: rest) =
        worker fetches r :: enrich_with_hospital_pages fetches rest) := by
  refine ⟨fun fetches rec u hu hf htl htl2 => ?_,
    fun fetches r rest => rfl⟩
  have hfetched := workerFetched_of_failed hu hf
  have hlat : pyOrFloat rec.latitude none = rec.latitude := by
    cases hl : rec.latitude with
    | none => rfl
    | some d => simp [pyOrFloat, htl d hl]
  have hlon : pyOrFloat rec.longitude none = rec.longitude := by
    cases hl : rec.longitude with
    | none => rfl
    | some d => simp [pyOrFloat, htl2 d hl]
  simp only [worker, hfetched]
  rw [hlat, hlon]
  rfl

/-- Claim C5 witness: a record with no listing coordinates and a
failing fetch passes through with null enrichment fields. -/
theorem c5_witness :
    worker noFetches
        ⟨"Other", "Quiet Hospital", "Terrace", none, none,
          some "https://en.wikipedia.org/wiki/Quiet", none, none,
          none⟩ =
      { healthAuthority := "Other", facilityName := "Quiet Hospital",
        locationCity := "Terrace", latitude := none, longitude := none,
        hospitalPageUrl := some "https://en.wikipedia.org/wiki/Quiet",
        bedsRaw := none, beds := none, bedsSourceUrl := none } :=
  c5_failed_fetch_amended.1 noFetches
    ⟨"Other", "Quiet Hospital", "Terrace", none, none,
      some "https://en.wikipedia.org/wiki/Quiet", none, none, none⟩
    "https://en.wikipedia.org/wiki/Quiet" rfl rfl
    (fun _ hd => nomatch hd) (fun _ hd => nomatch hd)

/-! ## Claim C10: beds source URL tracks beds raw -/

/-- Claim C10 counterexample: a detail page whose infobox carries a
"Beds" label with an empty value cell gives `Beds Raw` a present
(empty) value while `Beds Source URL` stays absent — the code guards
the source URL with Python truthiness of the raw text, not
presence. -/
theorem c10_counterexample :
    emptyBedsRec.hospitalPageUrl ≠ none ∧
    (worker emptyBedsFetches emptyBedsRec).bedsRaw = some "" ∧
    (worker emptyBedsFetches emptyBedsRec).bedsSourceUrl = none := by
  decide

/-- Claim C10 (amended): after enrichment, the capacity source URL is
present iff the raw capacity text is present *and non-empty*; in
particular a failed fetch leaves the source URL absent even when the
record carries a detail URL. -/
theorem c10_source_url_amended :
    (∀ (fetches : Fetches) (rec : Rec),
      ((worker fetches rec).bedsSourceUrl ≠ none ↔
        (∃ s, (worker fetches rec).bedsRaw = some s ∧ s ≠ ""))) ∧
    (∀ (fetches : Fetches) (rec : Rec) (u : String),
      rec.hospitalPageUrl = some u → fetches u = none →
      (worker fetches rec).bedsSourceUrl = none) := by
  constructor
  · intro fetches rec
    rw [worker_bedsSourceUrl, worker_bedsRaw]
    cases hb : (workerFetched fetches rec).1 with
    | none =>
      simp [truthyStr]
    | some s =>
      by_cases hs : s = ""
      · subst hs
        simp [truthyStr]
      · have hurl : rec.hospitalPageUrl ≠ none := by
          intro hc
          simp [workerFetched, hc] at hb
        have htr : truthyStr (some s) = true := by
          simp [truthyStr, hs]
        rw [htr]
        constructor
        · intro _
          exact ⟨s, rfl, hs⟩
        · intro _
          exact hurl
  · intro fetches rec u hu hf
    rw [worker_bedsSourceUrl, workerFetched_of_failed hu hf]
    rfl

/-- Claim C10 witness: a failed fetch leaves the source URL absent
although the record has a detail URL. -/
theorem c10_witness :
    (worker noFetches failFetchRec).bedsSourceUrl = none :=
  c10_source_url_amended.2 noFetches failFetchRec
    "https://en.wikipedia.org/wiki/St._Jude_Hospital" rfl rfl

/-! ## Claim C3: sorted, permutation-invariant assembly -/

/-- Claim C3 counterexample: two input records share the `(name,
city)` key but differ in `Beds`; deduplication keeps the first
occurrence, so the two orderings of the same records serialize to
different bytes — permutation invariance fails as stated. -/
theorem c3_counterexample :
    List.Perm [dupRecA, dupRecB] [dupRecB, dupRecA] ∧
    assembleCsv [dupRecA, dupRecB] ≠ assembleCsv [dupRecB, dupRecA] := by
  decide

/-- Claim C3 (amended): the assembled rows are always sorted by
(`section`, `name`) ascending; and for inputs whose `(name, city)`
deduplication keys are pairwise distinct and whose `(section, name)`
sort keys are pairwise distinct, running the assembler on any
permutation of the input yields byte-identical serialized output.
(With duplicate keys the kept duplicate and the tie order depend on
input order; pandas' default quicksort also guarantees no stable tie
order.) -/
theorem c3_assembler_sorted_amended :
    (∀ l : List Rec, (assembleRecs l).Sorted sortRel) ∧
    (∀ l l' : List Rec,
      l.Pairwise (fun a b => dedupKey a ≠ dedupKey b) →
      l.Pairwise (fun a b => sortKey a ≠ sortKey b) →
      l.Perm l' → assembleCsv l' = assembleCsv l) := by
  refine ⟨fun l => List.sorted_insertionSort sortRel _,
    fun l l' hdk hsk hp => ?_⟩
  have hdk' : l'.Pairwise (fun a b => dedupKey a ≠ dedupKey b) :=
    (hp.pairwise_iff (fun h => Ne.symm h)).mp hdk
  have hsk' : l'.Pairwise (fun a b => sortKey a ≠ sortKey b) :=
    (hp.pairwise_iff (fun h => Ne.symm h)).mp hsk
  have hd1 : dropDuplicates l [] = l :=
    dropDuplicates_eq_self hdk (fun x _ => List.not_mem_nil _)
  have hd2 : dropDuplicates l' [] = l' :=
    dropDuplicates_eq_self hdk' (fun x _ => List.not_mem_nil _)
  unfold assembleCsv
  congr 1
  unfold assembleRecs
  rw [hd1, hd2]
  apply sorted_perm_eq
  · exact ((List.perm_insertionSort sortRel l').trans hp.symm).trans
      (List.perm_insertionSort sortRel l).symm
  · exact List.pairwise_map.mpr
      (((List.perm_insertionSort sortRel l').pairwise_iff
        (fun h => Ne.symm h)).mpr hsk')
  · exact List.sorted_insertionSort sortRel l'
  · exact List.sorted_insertionSort sortRel l

/-- Claim C3 witness: with distinct keys, the two orderings of two
records serialize identically. -/
theorem c3_witness :
    assembleCsv
        [⟨"Interior Health", "Zeta Hospital", "Kamloops", none, none,
          none, none, none, none⟩,
         ⟨"Fraser Health", "Alpha Hospital", "Surrey", none, none,
          none, none, none, none⟩] =
      assembleCsv
        [⟨"Fraser Health", "Alpha Hospital", "Surrey", none, none,
          none, none, none, none⟩,
         ⟨"Interior Health", "Zeta Hospital", "Kamloops", none, none,
          none, none, none, none⟩] :=
  c3_assembler_sorted_amended.2
    [⟨"Fraser Health", "Alpha Hospital", "Surrey", none, none, none,
      none, none, none⟩,
     ⟨"Interior Health", "Zeta Hospital", "Kamloops", none, none,
      none, none, none, none⟩]
    [⟨"Interior Health", "Zeta Hospital", "Kamloops", none, none,
      none, none, none, none⟩,
     ⟨"Fraser Health", "Alpha Hospital", "Surrey", none, none, none,
      none, none, none⟩]
    (by decide) (by decide) (by decide)

/-! ## Claim C4: deduplication keeps the first occurrence -/

/-- Claim C4 (confirmed): the assembled dataset never contains two
rows with equal `(name, city)` pairs (string comparison, hence
case-sensitive), and every assembled row is exactly the first input
row bearing its key — the first-encountered duplicate's field values
are the ones retained. -/
theorem c4_dedup_first_kept :
    ∀ l : List Rec,
      (assembleRecs l).Pairwise
        (fun a b => dedupKey a ≠ dedupKey b) ∧
      (∀ r ∈ assembleRecs l,
        l.find? (fun x => decide (dedupKey x = dedupKey r)) =
          some r) := by
  intro l
  constructor
  · exact ((List.perm_insertionSort sortRel
      (dropDuplicates l [])).pairwise_iff
        (fun h => Ne.symm h)).mpr dropDuplicates_pairwise
  · intro r hr
    exact dropDuplicates_find?
      ((List.perm_insertionSort sortRel _).subset hr)

/-- Claim C4 witness: of two records sharing a key, the assembled
dataset retains the first. -/
theorem c4_witness :
    dupRecA ∈ assembleRecs [dupRecA, dupRecB] ∧
    [dupRecA, dupRecB].find?
        (fun x => decide (dedupKey x = dedupKey dupRecA)) =
      some dupRecA :=
  ⟨by decide,
    (c4_dedup_first_kept [dupRecA, dupRecB]).2 dupRecA (by decide)⟩

end BCH
